import Mathlib

/-!
Shallow embedding of three STM algorithm cores from the RSTM repository:

* LLT-AMD64      (src/libstm/algs/LLTAMD64.cpp)
* Pipeline-Turbo (src/libstm/algs/PipelineTurbo.cpp)
* Cohort-Eager   (src/lib/CohortsEager.cpp)

Machine words (`uintptr_t`) are modelled as `Nat`; signed counters
(`int32_t`, `tx->order`) as `Int`, with the C casts between the two made
explicit via reduction modulo `2 ^ 64`.  Shared-memory reads that the source
performs on racy locations (the "check-twice" orec reads) are modelled as
explicit observation parameters, since a concurrent thread may change the
location between two reads.  The non-returning `tmabort` /
`_ITM_abortTransaction` calls are modelled with `Option` / `Except`.
-/

namespace RSTM

/-- The C cast `(uintptr_t) z` of a signed value, on a 64-bit machine. -/
def w64 (z : Int) : Nat := (z % (2 ^ 64 : Int)).toNat

/-! ## LLT-AMD64 (src/libstm/algs/LLTAMD64.cpp)

An orec has the union view `v.all` (current version or lock word) and the
field `p` (version saved at lock-acquisition time).  The orec table is a
function from orec ids to orecs; `get_orec` (address hash, defined outside
the covered sources) is an arbitrary parameter. -/

structure Orec where
  v : Nat
  p : Nat
deriving Repr, DecidableEq

structure LLTState where
  start_time : Nat
  my_lock : Nat
  r_orecs : List Nat
  writes : List (Nat × Nat)
  locks : List Nat
  orecs : Nat → Orec
  memory : Nat → Nat

/-- One iteration of the lock-acquisition loop of `LLTAMD64CommitRW`
(LLTAMD64.cpp lines 72-90).  `ivt` is the version number read from the orec;
`o` is the orec content at the instant of the `bcasptr` compare-and-swap,
which a concurrent thread may have changed in between (so the CAS can fail).
Returns `none` for `tmabort`, otherwise the updated orec together with
whether it was appended to `tx->locks`. -/
def lltAcquireEntry (start_time my_lock ivt : Nat) (o : Orec) : Option (Orec × Bool) :=
  if ivt ≤ start_time then
    if o.v = ivt then some ({ v := my_lock, p := ivt }, true)
    else none
  else if ivt = my_lock then some (o, false)
  else none

/-- The acquisition loop of `LLTAMD64CommitRW` run without interference:
each entry's `ivt` is read from the current orec table, so the CAS compares
against the value just read. -/
def lltAcquireGo (go : Nat → Nat) : List (Nat × Nat) → LLTState → Option LLTState
  | [], st => some st
  | (addr, _) :: rest, st =>
    let oid := go addr
    let o := st.orecs oid
    match lltAcquireEntry st.start_time st.my_lock o.v o with
    | none => none
    | some (o2, app) =>
      lltAcquireGo go rest
        { st with
            orecs := fun j => if j = oid then o2 else st.orecs j,
            locks := if app then st.locks ++ [oid] else st.locks }

/-- `LLTAMD64Validate` (LLTAMD64.cpp lines 238-247): abort (`false`) as soon
as some logged orec is newer than `start_time` and not this thread's lock. -/
def LLTAMD64Validate (st : LLTState) : Bool :=
  lltValidateGo st.start_time st.my_lock st.orecs st.r_orecs
where
  lltValidateGo (stime ml : Nat) (orecs : Nat → Orec) : List Nat → Bool
    | [] => true
    | i :: rest =>
      if (orecs i).v > stime ∧ (orecs i).v ≠ ml then false
      else lltValidateGo stime ml orecs rest

/-- `tx->writes.writeback()`: run the redo log against memory. -/
def lltWriteback : List (Nat × Nat) → (Nat → Nat) → (Nat → Nat)
  | [], mem => mem
  | (addr, val) :: rest, mem =>
    lltWriteback rest (fun a => if a = addr then val else mem a)

/-- Lock release in `LLTAMD64CommitRW` (lines 103-104): store `end_time`
into the version word of every held orec. -/
def lltRelease (end_time : Nat) : List Nat → (Nat → Orec) → (Nat → Orec)
  | [], orecs => orecs
  | i :: rest, orecs =>
    lltRelease end_time rest
      (fun j => if j = i then { orecs i with v := end_time } else orecs j)

/-- `LLTAMD64CommitRW` (LLTAMD64.cpp lines 67-112): acquire all write-set
orecs, sample `end_time` from the tick counter (here a parameter, read after
acquisition), validate, run the redo log, release every held orec to
`end_time`, reset the lists.  `none` models `tmabort`. -/
def LLTAMD64CommitRW (go : Nat → Nat) (end_time : Nat) (st : LLTState) :
    Option LLTState :=
  match lltAcquireGo go st.writes st with
  | none => none
  | some st1 =>
    if LLTAMD64Validate st1 then
      some { st1 with
               memory := lltWriteback st1.writes st1.memory,
               orecs := lltRelease end_time st1.locks st1.orecs,
               r_orecs := [], writes := [], locks := [] }
    else none

/-- `LLTAMD64ReadRO` (LLTAMD64.cpp lines 119-141): the decision logic of a
check-twice read, as a function of the three shared-memory observations
`ivt` (orec version), `tmp` (the word at `addr`) and `ivt2` (orec version
again) — a concurrent committer can make them differ.  Returns the value and
the extended read log, or `none` for `tmabort`. -/
def LLTAMD64ReadRO (start_time : Nat) (r_orecs : List Nat)
    (oid ivt tmp ivt2 : Nat) : Option (Nat × List Nat) :=
  if ivt ≤ start_time ∧ ivt = ivt2 then some (tmp, r_orecs ++ [oid]) else none

/-- Modelled from the spec: the `WriteSet` container and its `find` live
outside the covered sources; per §4.5 the redo log is address-keyed with
last-write-wins, so lookup prefers the latest entry for an address. -/
def wsFind : List (Nat × Nat) → Nat → Option Nat
  | [], _ => none
  | (a, v) :: rest, addr =>
    match wsFind rest addr with
    | some w => some w
    | none => if a = addr then some v else none

/-- `LLTAMD64ReadRW` (LLTAMD64.cpp lines 146-176): consult the redo log
first; `REDO_RAW_CHECK` (outside the covered sources; modelled from the
spec's RAW-hazard rule) returns the buffered value on a full-mask hit,
skipping the orec check entirely.  On a miss the read proceeds exactly as
the read-only version. -/
def LLTAMD64ReadRW (start_time : Nat) (r_orecs : List Nat)
    (writes : List (Nat × Nat)) (addr oid ivt tmp ivt2 : Nat) :
    Option (Nat × List Nat) :=
  match wsFind writes addr with
  | some v => some (v, r_orecs)
  | none => LLTAMD64ReadRO start_time r_orecs oid ivt tmp ivt2

/-- Restoration loop of `LLTAMD64Rollback` (lines 215-216): each held orec
gets its version word set back to the saved `p` field. -/
def lltRestoreLocks : List Nat → (Nat → Orec) → (Nat → Orec)
  | [], orecs => orecs
  | i :: rest, orecs =>
    lltRestoreLocks rest
      (fun j => if j = i then { orecs i with v := (orecs i).p } else orecs j)

/-- `LLTAMD64Rollback` (LLTAMD64.cpp lines 204-224): restore every held
orec's version from `p`, then reset `r_orecs`, `writes` and `locks`.
(`PreRollback` / `PostRollback` and the exception-object writes of
`STM_ROLLBACK` touch only state outside this model.) -/
def LLTAMD64Rollback (st : LLTState) : LLTState :=
  { st with
      orecs := lltRestoreLocks st.locks st.orecs,
      r_orecs := [], writes := [], locks := [] }

/-- The global clock pair touched by the `OnSwitchTo` callbacks. -/
structure ClockPair where
  timestamp : Nat
  timestamp_max : Nat
deriving Repr, DecidableEq

/-- `LLTAMD64OnSwitchTo` (LLTAMD64.cpp lines 256-260): the body
`timestamp.val = MAXIMUM(timestamp.val, timestamp_max.val);` is commented
out in the source, so the callback is the identity. -/
def LLTAMD64OnSwitchTo (c : ClockPair) : ClockPair := c

/-! ## Pipeline-Turbo (src/libstm/algs/PipelineTurbo.cpp)

`tx->order` is a signed integer (sentinel `-1`); the global clock words
`timestamp`, `last_complete`, `ts_cache` and the orec versions are
`uintptr_t`.  `GoTurbo` / `CheckTurboMode` install and test the turbo
dispatch pointers; a single `turbo` flag models them. -/

structure PTState where
  timestamp : Nat
  last_complete : Nat
  order : Int
  ts_cache : Nat
  turbo : Bool
  r_orecs : List Nat
  writes : List (Nat × Nat)
  orecs : Nat → Nat
  memory : Nat → Nat

/-- The C expression `(uintptr_t)tx->order - 1`: cast to a 64-bit word,
then subtract 1 in word arithmetic. -/
def ptOrderPred (o : Int) : Nat := (w64 o + (2 ^ 64 - 1)) % 2 ^ 64

/-- `PipelineTurboBegin` (PipelineTurbo.cpp lines 53-65): fetch a fresh
order slot only when `order == -1` (`faiptr` returns the old `timestamp`),
cache `last_complete`, and go turbo immediately when already oldest. -/
def PipelineTurboBegin (st : PTState) : PTState :=
  let st1 :=
    if st.order = -1 then
      { st with order := 1 + (st.timestamp : Int), timestamp := st.timestamp + 1 }
    else st
  let st2 := { st1 with ts_cache := st1.last_complete }
  if st2.ts_cache = ptOrderPred st2.order then { st2 with turbo := true } else st2

/-- The orec scan shared by the Pipeline-Turbo validation and commit loops:
`false` as soon as some logged orec's version exceeds `ts_cache`. -/
def ptCheckOrecs (ts_cache : Nat) (orecs : Nat → Nat) : List Nat → Bool
  | [] => true
  | i :: rest =>
    if orecs i > ts_cache then false else ptCheckOrecs ts_cache orecs rest

/-- The write-back loop of `PipelineTurboValidate` / `PipelineTurboCommitRW`:
mark each write's orec with `tx->order` (stored into a `uintptr_t` word),
then store the value.  Returns the updated orec table and memory. -/
def ptWriteback (go : Nat → Nat) (ord : Int) :
    List (Nat × Nat) → (Nat → Nat) → (Nat → Nat) → ((Nat → Nat) × (Nat → Nat))
  | [], orecs, mem => (orecs, mem)
  | (addr, val) :: rest, orecs, mem =>
    ptWriteback go ord rest
      (fun j => if j = go addr then w64 ord else orecs j)
      (fun a => if a = addr then val else mem a)

/-- `PipelineTurboValidate` (PipelineTurbo.cpp lines 329-358): scan
`r_orecs` against `ts_cache` (abort on a newer version), advance `ts_cache`
to `finish_cache`, and if the transaction has thereby become the oldest
*and* its write set is non-empty, flush the write set and switch to turbo
mode.  `none` models `tmabort`. -/
def PipelineTurboValidate (go : Nat → Nat) (st : PTState) (finish_cache : Nat) :
    Option PTState :=
  if ptCheckOrecs st.ts_cache st.orecs st.r_orecs then
    let st1 := { st with ts_cache := finish_cache }
    if st1.ts_cache = ptOrderPred st1.order then
      if st1.writes.length ≠ 0 then
        let p := ptWriteback go st1.order st1.writes st1.orecs st1.memory
        some { st1 with orecs := p.1, memory := p.2, turbo := true }
      else some st1
    else some st1
  else none

/-- `PipelineTurboRollback` (PipelineTurbo.cpp lines 292-311): fatal
(`UNRECOVERABLE`, modelled as `none`) when `CheckTurboMode` holds; otherwise
reset `r_orecs` and `writes`, leaving `order` untouched.  `PreRollback` /
`PostRollback` (outside the covered sources; modelled from the spec, which
has rollback retain `order` so a retry keeps its slot) and the
exception-object writes of `STM_ROLLBACK` touch only state outside this
model. -/
def PipelineTurboRollback (st : PTState) : Option PTState :=
  if st.turbo then none
  else some { st with r_orecs := [], writes := [] }

/-- The global state touched by `PipelineTurboOnSwitchTo`: the clock pair,
`last_complete`, and every registered thread's `order`. -/
structure PTGlobal where
  timestamp : Nat
  timestamp_max : Nat
  last_complete : Nat
  orders : List Int

/-- `PipelineTurboOnSwitchTo` (PipelineTurbo.cpp lines 371-378): raise
`timestamp` to `max timestamp timestamp_max`, copy it into `last_complete`,
and reset every thread's `order` to `-1`. -/
def PipelineTurboOnSwitchTo (g : PTGlobal) : PTGlobal :=
  let ts := max g.timestamp g.timestamp_max
  { g with timestamp := ts, last_complete := ts,
           orders := g.orders.map (fun _ => (-1 : Int)) }

/-! ## Cohort-Eager (src/lib/CohortsEager.cpp)

The `int32_t` cohort counters (`started`, `cpending`, `committed`,
`last_order`) and `tx->order` are modelled as `Int` (their claim-relevant
range is far from the 32-bit boundary); the `uintptr_t` words
(`last_complete`, `ts_cache`, orec versions) as `Nat`, with the C casts
between the two made explicit through `w64`.  Each shared-memory effect of
a commit or write is additionally recorded in an action trace, so that
theorems can speak about which stores, orec marks, spin-waits and
validations an execution performs. -/

/-- Observable shared-memory actions of a Cohort-Eager operation. -/
inductive CEAction where
  | spin : CEAction
  | validated : CEAction
  | mark : Nat → Nat → CEAction
  | store : Nat → Nat → CEAction
deriving Repr, DecidableEq

/-- Thread-local and global Cohort-Eager state (the fields of `TX` that the
covered code touches, plus the file-level globals of CohortsEager.cpp). -/
structure CEState where
  started : Int
  cpending : Int
  committed : Int
  last_order : Int
  inplace : Nat
  last_complete : Nat
  nesting_depth : Nat
  turbo : Bool
  ts_cache : Nat
  order : Int
  r_orecs : List Nat
  writes : List (Nat × Nat × Nat)
  undo_log : List (Nat × Nat)
  commits_ro : Nat
  commits_rw : Nat
  orecs : Nat → Nat
  memory : Nat → Nat

/-- Modelled from the spec: the redo-log container sits outside the covered
sources; per §4.5 `insert` is last-write-wins by address. -/
def ceInsert : List (Nat × Nat × Nat) → Nat → Nat → Nat → List (Nat × Nat × Nat)
  | [], addr, val, mask => [(addr, val, mask)]
  | (a, v, m) :: rest, addr, val, mask =>
    if a = addr then (a, val, mask) :: rest
    else (a, v, m) :: ceInsert rest addr val mask

/-- The state produced when `validate` aborts (CohortsEager.cpp lines
88-96): bump `committed`, publish `last_complete = tx->order`, then call
the non-returning `_ITM_abortTransaction(TMConflict)`. -/
def ceAbortState (st : CEState) : CEState :=
  { st with committed := st.committed + 1, last_complete := w64 st.order }

/-- `validate` (CohortsEager.cpp lines 79-99): scan `r_orecs`; at the first
orec whose version exceeds `ts_cache`, increment `committed`, publish
`last_complete = tx->order` and abort (`.error`, carrying the state at the
abort).  If no orec is too new, return with the state untouched. -/
def ceValidate : List Nat → CEState → Except CEState CEState
  | [], st => .ok st
  | i :: rest, st =>
    if st.orecs i > st.ts_cache then .error (ceAbortState st)
    else ceValidate rest st

/-- The write-back loop of the writing commit (CohortsEager.cpp lines
187-194): mark each write's orec with `tx->order`, then write the value
back.  Returns the updated orec table and memory together with the trace of
marks and stores. -/
def ceWriteback (go : Nat → Nat) (ord : Int) :
    List (Nat × Nat × Nat) → (Nat → Nat) → (Nat → Nat) →
    ((Nat → Nat) × (Nat → Nat) × List CEAction)
  | [], orecs, mem => (orecs, mem, [])
  | (addr, val, _) :: rest, orecs, mem =>
    let oid := go addr
    let r := ceWriteback go ord rest
      (fun j => if j = oid then w64 ord else orecs j)
      (fun a => if a = addr then val else mem a)
    (r.1, r.2.1, .mark oid (w64 ord) :: .store addr val :: r.2.2)

/-- The tail of the writing commit after a passed (or skipped) validation
(CohortsEager.cpp lines 187-214): write back, bump `committed`, set
`last_order = started + 1`, publish `last_complete = tx->order`, reset the
logs, count a read-write commit. -/
def ceCommitTail (go : Nat → Nat) (st : CEState) : CEState × List CEAction :=
  let r := ceWriteback go st.order st.writes st.orecs st.memory
  ({ st with
       orecs := r.1, memory := r.2.1,
       committed := st.committed + 1,
       last_order := st.started + 1,
       last_complete := w64 st.order,
       undo_log := [], r_orecs := [], writes := [],
       commits_rw := st.commits_rw + 1 },
   r.2.2)

/-- Outcome of `alg_tm_end`: a nested inner commit returns immediately; a
busy-wait whose condition does not (yet) hold leaves the thread spinning
(`blockedTx` — in the running system another thread's progress releases
it); otherwise the commit either aborts inside `validate` or completes. -/
inductive CEOutcome where
  | committedTx : CEState → CEOutcome
  | abortedTx : CEState → CEOutcome
  | blockedTx : CEOutcome
  | nestedReturn : CEState → CEOutcome

/-- `alg_tm_end` (CohortsEager.cpp lines 129-215).  The nesting counter is
modelled from the spec (§3: outermost commits happen at depth 1→0; the `TX`
structure sits outside the covered sources).  Traces record a `.spin` for
every busy-wait statement reached, a `.validated` when the `validate` call
runs, and the marks/stores of the write-back. -/
def alg_tm_end (go : Nat → Nat) (st0 : CEState) : CEOutcome × List CEAction :=
  if st0.nesting_depth - 1 ≠ 0 then
    (.nestedReturn { st0 with nesting_depth := st0.nesting_depth - 1 }, [])
  else
    let st := { st0 with nesting_depth := 0 }
    if st.turbo then
      let st1 := { st with cpending := st.cpending + 1 }
      let st2 := { st1 with
                     undo_log := [], r_orecs := [],
                     commits_rw := st1.commits_rw + 1 }
      if st2.last_complete = w64 (st2.cpending - 1) then
        (.committedTx { st2 with
                          inplace := 0,
                          last_complete := w64 st2.cpending,
                          committed := st2.committed + 1,
                          turbo := false },
         [.spin])
      else (.blockedTx, [.spin])
    else if st.writes.length = 0 then
      (.committedTx { st with
                        started := st.started - 1,
                        r_orecs := [],
                        commits_ro := st.commits_ro + 1 },
       [])
    else
      let st1 := { st with cpending := st.cpending + 1, order := st.cpending + 1 }
      if st1.last_complete ≠ w64 (st1.order - 1) then (.blockedTx, [.spin])
      else if st1.cpending < st1.started then (.blockedTx, [.spin, .spin])
      else if st1.inplace = 1 ∨ st1.order ≠ st1.last_order then
        match ceValidate st1.r_orecs st1 with
        | .error ab => (.abortedTx ab, [.spin, .spin, .validated])
        | .ok st2 =>
          let r := ceCommitTail go st2
          (.committedTx r.1, [.spin, .spin, .validated] ++ r.2)
      else
        let r := ceCommitTail go st1
        (.committedTx r.1, [.spin, .spin] ++ r.2)

/-- The non-turbo branch of Cohort-Eager's `Write` functor
(CohortsEager.cpp lines 242-268), including the in-place promotion branch
whose source guard is `if (!tx->writes.size() && 0)`.  The turbo branch
(lines 235-240) marks the orec with `started` and writes in place. -/
def ceWrite (go : Nat → Nat) (st : CEState) (addr val mask : Nat) :
    CEState × List CEAction :=
  if st.turbo then
    let oid := go addr
    ({ st with
         orecs := fun j => if j = oid then w64 st.started else st.orecs j,
         memory := fun a => if a = addr then val else st.memory a },
     [.mark oid (w64 st.started), .store addr val])
  else if st.writes.length == 0 && false then
    if st.cpending + 1 = st.started then
      let st1 := { st with inplace := 1 }
      if st1.cpending + 1 = st1.started then
        let oid := go addr
        ({ st1 with
             orecs := fun j => if j = oid then w64 st1.started else st1.orecs j,
             memory := fun a => if a = addr then val else st1.memory a,
             turbo := true },
         [.mark oid (w64 st1.started), .store addr val])
      else
        ({ st1 with inplace := 0, writes := ceInsert st1.writes addr val mask }, [])
    else ({ st with writes := ceInsert st.writes addr val mask }, [])
  else ({ st with writes := ceInsert st.writes addr val mask }, [])

/-- The always-buffer write that §4.4 of the spec documents as Cohort-Eager's
live non-turbo `Write` behaviour (the refinement target for the dead-code
claim). -/
def ceBufferWrite (st : CEState) (addr val mask : Nat) : CEState × List CEAction :=
  ({ st with writes := ceInsert st.writes addr val mask }, [])

/-! ## Concrete states used to instantiate the theorems below -/

/-- An oldest Pipeline-Turbo transaction (`order = 1`, `ts_cache = 0`) with
an empty read set and an empty write set. -/
def ptCex : PTState :=
  { timestamp := 1, last_complete := 0, order := 1, ts_cache := 0, turbo := false,
    r_orecs := [], writes := [], orecs := fun _ => 0, memory := fun _ => 0 }

/-- An oldest Pipeline-Turbo transaction with one logged orec and one
buffered write. -/
def ptW2 : PTState :=
  { timestamp := 1, last_complete := 0, order := 1, ts_cache := 0, turbo := false,
    r_orecs := [1], writes := [(2, 9)], orecs := fun _ => 0, memory := fun _ => 0 }

/-- The state `PipelineTurboValidate` produces from `ptW2` with
`finish_cache = 0`: write flushed, orec 2 marked, turbo entered. -/
def ptW2res : PTState :=
  { ptW2 with
      ts_cache := 0, turbo := true,
      orecs := fun j => if j = (2 : Nat) then w64 1 else ptW2.orecs j,
      memory := fun a => if a = (2 : Nat) then 9 else ptW2.memory a }

/-- A non-turbo Pipeline-Turbo transaction holding order slot 5. -/
def ptW7 : PTState :=
  { timestamp := 3, last_complete := 1, order := 5, ts_cache := 0, turbo := false,
    r_orecs := [1, 2], writes := [(0, 1)], orecs := fun _ => 0, memory := fun _ => 0 }

/-- An LLT-AMD64 transaction holding two locked orecs with saved versions
2 and 3. -/
def lltW8 : LLTState :=
  { start_time := 4, my_lock := 99, r_orecs := [0], writes := [(1, 5)],
    locks := [0, 1],
    orecs := fun j => if j = 0 then ⟨99, 2⟩ else ⟨99, 3⟩,
    memory := fun _ => 0 }

/-- An LLT-AMD64 writer about to commit: one write to address 0, whose orec
is unlocked at version 0, read set empty. -/
def lltW4 : LLTState :=
  { start_time := 5, my_lock := 100, r_orecs := [], writes := [(0, 7)],
    locks := [], orecs := fun _ => ⟨0, 0⟩, memory := fun _ => 0 }

/-- The state after `lltW4`'s acquisition loop: orec 0 locked, old version
saved in `p`, orec appended to `locks`. -/
def lltW4acq : LLTState :=
  { lltW4 with
      orecs := fun j => if j = (0 : Nat) then ⟨100, 0⟩ else lltW4.orecs j,
      locks := [0] }

/-- A fresh outermost non-turbo Cohort-Eager transaction with empty logs. -/
def ceW3 : CEState :=
  { started := 1, cpending := 0, committed := 0, last_order := 0, inplace := 0,
    last_complete := 0, nesting_depth := 1, turbo := false, ts_cache := 0,
    order := -1, r_orecs := [], writes := [], undo_log := [],
    commits_ro := 0, commits_rw := 0, orecs := fun _ => 0, memory := fun _ => 0 }

/-- An outermost non-turbo Cohort-Eager transaction with an empty write set
(a read-only commit). -/
def ceW10 : CEState :=
  { started := 2, cpending := 1, committed := 1, last_order := 3, inplace := 0,
    last_complete := 4, nesting_depth := 1, turbo := false, ts_cache := 4,
    order := -1, r_orecs := [5, 6], writes := [], undo_log := [],
    commits_ro := 2, commits_rw := 1, orecs := fun _ => 0, memory := fun _ => 0 }

/-- An outermost non-turbo Cohort-Eager writer whose single logged orec has
moved past its `ts_cache`, and for which both commit-time waits already
hold; its commit must abort inside `validate`. -/
def ceSt9 : CEState :=
  { started := 1, cpending := 0, committed := 0, last_order := 0, inplace := 0,
    last_complete := 0, nesting_depth := 1, turbo := false, ts_cache := 0,
    order := -1, r_orecs := [0], writes := [(0, 5, 0)], undo_log := [],
    commits_ro := 0, commits_rw := 0, orecs := fun _ => 10, memory := fun _ => 0 }

/-- The state `alg_tm_end` hands to the abort on input `ceSt9`. -/
def ceAb9 : CEState :=
  ceAbortState { ceSt9 with nesting_depth := 0, cpending := 1, order := 1 }

/-- Like `ceSt9` but in a two-transaction cohort, with the commit-time waits
already satisfied. -/
def ceSt6 : CEState :=
  { started := 2, cpending := 1, committed := 0, last_order := 0, inplace := 0,
    last_complete := 1, nesting_depth := 1, turbo := false, ts_cache := 0,
    order := -1, r_orecs := [3], writes := [(1, 2, 0)], undo_log := [],
    commits_ro := 0, commits_rw := 0, orecs := fun _ => 7, memory := fun _ => 0 }

/-- The state `alg_tm_end` hands to the abort on input `ceSt6`. -/
def ceAb6 : CEState :=
  ceAbortState { ceSt6 with nesting_depth := 0, cpending := 2, order := 2 }

/-! ## Helper lemmas -/

theorem ptCheckOrecs_false_iff (ts : Nat) (orecs : Nat → Nat) (l : List Nat) :
    ptCheckOrecs ts orecs l = false ↔ ∃ i ∈ l, orecs i > ts := by
  induction l with
  | nil => simp [ptCheckOrecs]
  | cons j rest ih =>
    by_cases h : orecs j > ts
    · simp [ptCheckOrecs, h]
    · simp [ptCheckOrecs, h, ih]

theorem lltRestoreLocks_p (l : List Nat) :
    ∀ (orecs : Nat → Orec) (i : Nat),
      (lltRestoreLocks l orecs i).p = (orecs i).p := by
  induction l with
  | nil => intro orecs i; rfl
  | cons j rest ih =>
    intro orecs i
    rw [lltRestoreLocks, ih]
    by_cases h : i = j <;> simp [h]

theorem lltRestoreLocks_not_mem (l : List Nat) :
    ∀ (orecs : Nat → Orec) (i : Nat), i ∉ l →
      lltRestoreLocks l orecs i = orecs i := by
  induction l with
  | nil => intro orecs i _; rfl
  | cons j rest ih =>
    intro orecs i hi
    rw [List.mem_cons, not_or] at hi
    rw [lltRestoreLocks, ih _ _ hi.2]
    simp [hi.1]

theorem lltRestoreLocks_mem (l : List Nat) :
    ∀ (orecs : Nat → Orec), ∀ i ∈ l,
      (lltRestoreLocks l orecs i).v = (orecs i).p := by
  induction l with
  | nil => intro _ i hi; cases hi
  | cons j rest ih =>
    intro orecs i hi
    rw [lltRestoreLocks]
    rcases List.mem_cons.mp hi with rfl | hmem
    · by_cases hr : i ∈ rest
      · rw [ih _ _ hr]; simp
      · rw [lltRestoreLocks_not_mem _ _ _ hr]; simp
    · rw [ih _ _ hmem]
      by_cases h : i = j <;> simp [h]

theorem lltRelease_not_mem (et : Nat) (l : List Nat) :
    ∀ (orecs : Nat → Orec) (i : Nat), i ∉ l →
      lltRelease et l orecs i = orecs i := by
  induction l with
  | nil => intro orecs i _; rfl
  | cons j rest ih =>
    intro orecs i hi
    rw [List.mem_cons, not_or] at hi
    rw [lltRelease, ih _ _ hi.2]
    simp [hi.1]

theorem lltRelease_mem (et : Nat) (l : List Nat) :
    ∀ (orecs : Nat → Orec), ∀ i ∈ l,
      (lltRelease et l orecs i).v = et := by
  induction l with
  | nil => intro _ i hi; cases hi
  | cons j rest ih =>
    intro orecs i hi
    rw [lltRelease]
    rcases List.mem_cons.mp hi with rfl | hmem
    · by_cases hr : i ∈ rest
      · exact ih _ _ hr
      · rw [lltRelease_not_mem _ _ _ _ hr]; simp
    · exact ih _ _ hmem

theorem lltValidateGo_false_iff (stime ml : Nat) (orecs : Nat → Orec) :
    ∀ l : List Nat,
      LLTAMD64Validate.lltValidateGo stime ml orecs l = false ↔
        ∃ i ∈ l, (orecs i).v > stime ∧ (orecs i).v ≠ ml := by
  intro l
  induction l with
  | nil => simp [LLTAMD64Validate.lltValidateGo]
  | cons j rest ih =>
    simp only [LLTAMD64Validate.lltValidateGo]
    by_cases h : (orecs j).v > stime ∧ (orecs j).v ≠ ml
    · rw [if_pos h]
      exact ⟨fun _ => ⟨j, List.mem_cons_self j rest, h⟩, fun _ => rfl⟩
    · rw [if_neg h, ih]
      constructor
      · rintro ⟨i, hi, hp⟩; exact ⟨i, List.mem_cons_of_mem j hi, hp⟩
      · rintro ⟨i, hi, hp⟩
        rcases List.mem_cons.mp hi with rfl | hm
        · exact absurd hp h
        · exact ⟨i, hm, hp⟩

theorem ceValidate_ok (st : CEState) :
    ∀ l : List Nat, (∀ i ∈ l, ¬ st.orecs i > st.ts_cache) →
      ceValidate l st = Except.ok st := by
  intro l
  induction l with
  | nil => intro _; rfl
  | cons j rest ih =>
    intro h
    rw [ceValidate, if_neg (h j (List.mem_cons_self j rest))]
    exact ih (fun i hi => h i (List.mem_cons_of_mem j hi))

theorem ceValidate_error (st : CEState) :
    ∀ l : List Nat, (∃ i ∈ l, st.orecs i > st.ts_cache) →
      ceValidate l st = Except.error (ceAbortState st) := by
  intro l
  induction l with
  | nil => rintro ⟨i, hi, -⟩; cases hi
  | cons j rest ih =>
    rintro ⟨i, hi, hgt⟩
    by_cases hj : st.orecs j > st.ts_cache
    · rw [ceValidate, if_pos hj]
    · rcases List.mem_cons.mp hi with rfl | hmem
      · exact absurd hgt hj
      · rw [ceValidate, if_neg hj]; exact ih ⟨i, hmem, hgt⟩

theorem ceValidate_error_shape (st : CEState) :
    ∀ (l : List Nat) (e : CEState),
      ceValidate l st = Except.error e → e = ceAbortState st := by
  intro l
  induction l with
  | nil => intro e h; cases h
  | cons j rest ih =>
    intro e h
    rw [ceValidate] at h
    split at h
    · injection h with h; exact h.symm
    · exact ih e h

theorem ceWriteback_actions (go : Nat → Nat) (ord : Int) :
    ∀ (l : List (Nat × Nat × Nat)) (orecs mem : Nat → Nat),
      ∀ a ∈ (ceWriteback go ord l orecs mem).2.2,
        a ≠ CEAction.spin ∧ a ≠ CEAction.validated := by
  intro l
  induction l with
  | nil => intro orecs mem a ha; simp [ceWriteback] at ha
  | cons e rest ih =>
    rcases e with ⟨addr, val, m⟩
    intro orecs mem a ha
    simp only [ceWriteback] at ha
    rcases List.mem_cons.mp ha with rfl | ha2
    · exact ⟨by simp, by simp⟩
    · rcases List.mem_cons.mp ha2 with rfl | ha3
      · exact ⟨by simp, by simp⟩
      · exact ih _ _ a ha3

/-! ## Claim theorems -/

/-- C1: `PipelineTurboOnSwitchTo` does establish the claimed clock
invariants, but `LLTAMD64OnSwitchTo` — whose only statement is commented
out in the source — does not raise the clock: started from
`timestamp = 0 < 1 = timestamp_max` it leaves the pair unchanged, so
`timestamp ≥ timestamp_max` fails after it runs. -/
theorem onSwitchTo_clock_claim_fails_for_lltamd64 :
    LLTAMD64OnSwitchTo ⟨0, 1⟩ = ⟨0, 1⟩ ∧
    ¬ (LLTAMD64OnSwitchTo ⟨0, 1⟩).timestamp ≥
        (LLTAMD64OnSwitchTo ⟨0, 1⟩).timestamp_max ∧
    PipelineTurboOnSwitchTo ⟨2, 5, 3, [4, -1, 9]⟩ = ⟨5, 5, 5, [-1, -1, -1]⟩ :=
  ⟨rfl, by decide, rfl⟩

/-- C2 (counterexample): on a transaction with an empty write set,
`PipelineTurboValidate` raises `ts_cache` to `order - 1` yet leaves the
transaction in normal mode, refuting the claim that reaching
`ts_cache = order - 1` always flushes and enters turbo mode. -/
theorem pipelineValidate_empty_writes_no_turbo :
    PipelineTurboValidate (fun a => a) ptCex 0 = some ptCex ∧
    ptCex.ts_cache = ptOrderPred ptCex.order ∧
    ptCex.writes = [] ∧
    ptCex.turbo = false :=
  ⟨rfl, by decide, rfl, rfl⟩

/-- C2 (amended): `PipelineTurboValidate finish_cache` aborts exactly when
some logged orec's version exceeds `ts_cache`; otherwise it sets
`ts_cache := finish_cache`, and — provided the write set is non-empty —
when the new `ts_cache` equals `order - 1` it flushes the write set
(marking each write's orec with `order` before storing) and enters turbo
mode; in every other non-aborting case the state is unchanged apart from
`ts_cache`. -/
theorem pipelineValidate_spec (go : Nat → Nat) (st : PTState) (fc : Nat) :
    (PipelineTurboValidate go st fc = none ↔
       ∃ i ∈ st.r_orecs, st.orecs i > st.ts_cache) ∧
    ∀ st', PipelineTurboValidate go st fc = some st' →
      st'.ts_cache = fc ∧ st'.order = st.order ∧
      (fc = ptOrderPred st.order ∧ st.writes ≠ [] →
         st'.turbo = true ∧
         (st'.orecs, st'.memory) =
           ptWriteback go st.order st.writes st.orecs st.memory) ∧
      (¬ (fc = ptOrderPred st.order ∧ st.writes ≠ []) →
         st' = { st with ts_cache := fc }) := by
  rcases hchk : ptCheckOrecs st.ts_cache st.orecs st.r_orecs with _ | _
  · constructor
    · simpa [PipelineTurboValidate, hchk] using
        (ptCheckOrecs_false_iff st.ts_cache st.orecs st.r_orecs).mp hchk
    · intro st' h
      simp [PipelineTurboValidate, hchk] at h
  · have hnone : ¬ ∃ i ∈ st.r_orecs, st.orecs i > st.ts_cache := by
      intro h
      rw [(ptCheckOrecs_false_iff st.ts_cache st.orecs st.r_orecs).mpr h] at hchk
      cases hchk
    by_cases hold : fc = ptOrderPred st.order
    · by_cases hw : st.writes = []
      · have hv : PipelineTurboValidate go st fc = some { st with ts_cache := fc } := by
          simp [PipelineTurboValidate, hchk, hold, hw]
        refine ⟨?_, ?_⟩
        · rw [hv]; simp [hnone]
        · intro st' h; rw [hv] at h; injection h with h; subst h
          refine ⟨rfl, rfl, ?_, fun _ => rfl⟩
          rintro ⟨-, hne⟩; exact absurd hw hne
      · have hv : PipelineTurboValidate go st fc =
            some { st with
                     ts_cache := fc
                     turbo := true
                     orecs := (ptWriteback go st.order st.writes st.orecs st.memory).1
                     memory := (ptWriteback go st.order st.writes st.orecs st.memory).2 } := by
          simp [PipelineTurboValidate, hchk, hold, hw]
        refine ⟨?_, ?_⟩
        · rw [hv]; simp [hnone]
        · intro st' h; rw [hv] at h; injection h with h; subst h
          exact ⟨rfl, rfl, fun _ => ⟨rfl, rfl⟩, fun hc => absurd ⟨hold, hw⟩ hc⟩
    · have hv : PipelineTurboValidate go st fc = some { st with ts_cache := fc } := by
        simp [PipelineTurboValidate, hchk, hold]
      refine ⟨?_, ?_⟩
      · rw [hv]; simp [hnone]
      · intro st' h; rw [hv] at h; injection h with h; subst h
        refine ⟨rfl, rfl, ?_, fun _ => rfl⟩
        rintro ⟨hc, -⟩; exact absurd hc hold

/-- C2 (witness): instantiating the amended validation theorem on `ptW2`
(one buffered write, oldest after `finish_cache = 0`). -/
theorem pipelineValidate_spec_witness :
    ptW2res.ts_cache = 0 ∧ ptW2res.turbo = true ∧
    (ptW2res.orecs, ptW2res.memory) =
      ptWriteback (fun a => a) ptW2.order ptW2.writes ptW2.orecs ptW2.memory := by
  have h := (pipelineValidate_spec (fun a => a) ptW2 0).2 ptW2res rfl
  have hp := h.2.2.1 ⟨by decide, by decide⟩
  exact ⟨h.1, hp.1, hp.2⟩

/-- C3: with `tx->turbo` false, Cohort-Eager's `Write` only buffers
`(addr, val, mask)` into the redo log — the in-place promotion branch,
guarded by `&& 0` in the source, is dead: no store or orec mark is
performed, `inplace` and `turbo` are untouched, and the whole non-turbo
path equals the always-buffer write. -/
theorem cohortsWrite_nonturbo_buffers (go : Nat → Nat) (st : CEState)
    (addr val mask : Nat) (hturbo : st.turbo = false) :
    ceWrite go st addr val mask = ceBufferWrite st addr val mask ∧
    ceWrite go st addr val mask =
      ({ st with writes := ceInsert st.writes addr val mask }, []) ∧
    (ceWrite go st addr val mask).1.memory = st.memory ∧
    (ceWrite go st addr val mask).1.orecs = st.orecs ∧
    (ceWrite go st addr val mask).1.inplace = st.inplace ∧
    (ceWrite go st addr val mask).1.turbo = false ∧
    (ceWrite go st addr val mask).2 = [] := by
  have h : ceWrite go st addr val mask =
      ({ st with writes := ceInsert st.writes addr val mask }, []) := by
    simp [ceWrite, hturbo]
  exact ⟨h.trans rfl, h, by rw [h], by rw [h], by rw [h],
         by rw [h]; exact hturbo, by rw [h]⟩

/-- C3 (witness): the non-turbo write on the concrete state `ceW3`. -/
theorem cohortsWrite_nonturbo_buffers_witness :
    ceWrite (fun a => a) ceW3 4 7 0 = ceBufferWrite ceW3 4 7 0 ∧
    (ceWrite (fun a => a) ceW3 4 7 0).1.turbo = false :=
  ⟨(cohortsWrite_nonturbo_buffers (fun a => a) ceW3 4 7 0 rfl).1,
   (cohortsWrite_nonturbo_buffers (fun a => a) ceW3 4 7 0 rfl).2.2.2.2.2.1⟩

/-- C7: Pipeline-Turbo rollback is fatal in turbo mode; otherwise it resets
`r_orecs` and `writes` but keeps `tx->order`, so the following begin — its
order being different from `-1` — fetches no new order slot and leaves the
global timestamp alone. -/
theorem pipelineRollback_spec (st : PTState) :
    (st.turbo = true → PipelineTurboRollback st = none) ∧
    (st.turbo = false →
       PipelineTurboRollback st = some { st with r_orecs := [], writes := [] } ∧
       ∀ st', PipelineTurboRollback st = some st' →
         st'.order = st.order ∧ st'.r_orecs = [] ∧ st'.writes = [] ∧
         (st.order ≠ -1 →
            (PipelineTurboBegin st').order = st.order ∧
            (PipelineTurboBegin st').timestamp = st.timestamp)) := by
  constructor
  · intro h; simp [PipelineTurboRollback, h]
  · intro h
    have heq : PipelineTurboRollback st =
        some { st with r_orecs := [], writes := [] } := by
      simp [PipelineTurboRollback, h]
    refine ⟨heq, ?_⟩
    intro st' hst'
    rw [heq] at hst'
    rcases Option.some.injEq .. ▸ hst' with rfl
    refine ⟨rfl, rfl, rfl, ?_⟩
    intro hord
    rw [PipelineTurboBegin]
    simp only [if_neg (show ¬ ({ st with r_orecs := [], writes := [] } :
      PTState).order = -1 from hord)]
    constructor
    · split <;> rfl
    · split <;> rfl

/-- C7 (witness): rollback and retry-begin on the concrete non-turbo state
`ptW7` (order slot 5). -/
theorem pipelineRollback_spec_witness :
    PipelineTurboRollback ptW7 = some { ptW7 with r_orecs := [], writes := [] } ∧
    (PipelineTurboBegin { ptW7 with r_orecs := [], writes := [] }).order =
      ptW7.order := by
  have h := (pipelineRollback_spec ptW7).2 rfl
  exact ⟨h.1, ((h.2 _ h.1).2.2.2 (by decide)).1⟩

/-- C8: LLT-AMD64 rollback restores every held orec's version word to the
value saved in its `p` field and resets `r_orecs`, `writes` and `locks`. -/
theorem lltRollback_spec (st : LLTState) :
    (∀ i ∈ st.locks, ((LLTAMD64Rollback st).orecs i).v = (st.orecs i).p) ∧
    (LLTAMD64Rollback st).r_orecs = [] ∧
    (LLTAMD64Rollback st).writes = [] ∧
    (LLTAMD64Rollback st).locks = [] :=
  ⟨fun i hi => lltRestoreLocks_mem st.locks st.orecs i hi, rfl, rfl, rfl⟩

/-- C8 (witness): rollback of `lltW8`, which holds orecs 0 and 1 with saved
versions 2 and 3. -/
theorem lltRollback_spec_witness :
    ((LLTAMD64Rollback lltW8).orecs 0).v = (lltW8.orecs 0).p ∧
    ((LLTAMD64Rollback lltW8).orecs 1).v = (lltW8.orecs 1).p ∧
    (LLTAMD64Rollback lltW8).locks = [] :=
  ⟨(lltRollback_spec lltW8).1 0 (by decide),
   (lltRollback_spec lltW8).1 1 (by decide),
   (lltRollback_spec lltW8).2.2.2⟩

/-- C10: an outermost, non-turbo Cohort-Eager commit with an empty write
set decrements `started`, counts a read-only commit and resets `r_orecs`,
while leaving `cpending`, `committed`, `last_complete`, `last_order`,
`inplace` and `tx->order` unchanged; its trace is empty — no spin-wait, no
store, no orec mark. -/
theorem cohortsCommit_readonly_frame (go : Nat → Nat) (st : CEState)
    (hnest : st.nesting_depth = 1) (hturbo : st.turbo = false)
    (hro : st.writes = []) :
    alg_tm_end go st =
      (.committedTx { st with nesting_depth := 0, started := st.started - 1,
                              r_orecs := [], commits_ro := st.commits_ro + 1 },
       []) ∧
    ∀ st', (alg_tm_end go st).1 = .committedTx st' →
      st'.started = st.started - 1 ∧ st'.commits_ro = st.commits_ro + 1 ∧
      st'.r_orecs = [] ∧
      st'.cpending = st.cpending ∧ st'.committed = st.committed ∧
      st'.last_complete = st.last_complete ∧ st'.last_order = st.last_order ∧
      st'.inplace = st.inplace ∧ st'.order = st.order ∧
      st'.memory = st.memory ∧ st'.orecs = st.orecs := by
  have heq : alg_tm_end go st =
      (.committedTx { st with nesting_depth := 0, started := st.started - 1,
                              r_orecs := [], commits_ro := st.commits_ro + 1 },
       []) := by
    simp [alg_tm_end, hnest, hturbo, hro]
  refine ⟨heq, ?_⟩
  intro st' hst'
  rw [heq] at hst'
  rcases CEOutcome.committedTx.injEq .. ▸ hst' with rfl
  exact ⟨rfl, rfl, rfl, rfl, rfl, rfl, rfl, rfl, rfl, rfl, rfl⟩

/-- C4: in LLT-AMD64's writing commit, each write-set entry's observed orec
version `ivt` is handled as claimed (CAS to `my_lock` with abort on CAS
failure and `p`/`locks` bookkeeping on success when `ivt ≤ start_time`;
proceed when `ivt = my_lock`; abort otherwise); the whole commit aborts
when acquisition aborts; after acquisition, validation aborts exactly when
some read orec's version exceeds `start_time` without being `my_lock`, and
on success the redo log is written back and every acquired lock is
released to the sampled `end_time`. -/
theorem lltCommitRW_spec :
    (∀ (stime ml ivt : Nat) (o : Orec),
       (ivt ≤ stime → o.v ≠ ivt → lltAcquireEntry stime ml ivt o = none) ∧
       (ivt ≤ stime → o.v = ivt →
          lltAcquireEntry stime ml ivt o = some ({ v := ml, p := ivt }, true)) ∧
       (¬ ivt ≤ stime → ivt = ml → lltAcquireEntry stime ml ivt o = some (o, false)) ∧
       (¬ ivt ≤ stime → ivt ≠ ml → lltAcquireEntry stime ml ivt o = none)) ∧
    (∀ st : LLTState,
       LLTAMD64Validate st = false ↔
         ∃ i ∈ st.r_orecs,
           (st.orecs i).v > st.start_time ∧ (st.orecs i).v ≠ st.my_lock) ∧
    (∀ (go : Nat → Nat) (et : Nat) (st : LLTState),
       lltAcquireGo go st.writes st = none → LLTAMD64CommitRW go et st = none) ∧
    (∀ (go : Nat → Nat) (et : Nat) (st st1 : LLTState),
       lltAcquireGo go st.writes st = some st1 →
       (LLTAMD64Validate st1 = false → LLTAMD64CommitRW go et st = none) ∧
       (LLTAMD64Validate st1 = true →
          LLTAMD64CommitRW go et st =
            some { st1 with
                     memory := lltWriteback st1.writes st1.memory,
                     orecs := lltRelease et st1.locks st1.orecs,
                     r_orecs := [], writes := [], locks := [] } ∧
          ∀ i ∈ st1.locks, (lltRelease et st1.locks st1.orecs i).v = et)) := by
  refine ⟨?_, ?_, ?_, ?_⟩
  · intro stime ml ivt o
    refine ⟨?_, ?_, ?_, ?_⟩
    · intro hle hne; rw [lltAcquireEntry, if_pos hle, if_neg hne]
    · intro hle heq; rw [lltAcquireEntry, if_pos hle, if_pos heq]
    · intro hgt heq; rw [lltAcquireEntry, if_neg hgt, if_pos heq]
    · intro hgt hne; rw [lltAcquireEntry, if_neg hgt, if_neg hne]
  · intro st
    exact lltValidateGo_false_iff st.start_time st.my_lock st.orecs st.r_orecs
  · intro go et st h
    simp [LLTAMD64CommitRW, h]
  · intro go et st st1 hacq
    constructor
    · intro hval; simp [LLTAMD64CommitRW, hacq, hval]
    · intro hval
      exact ⟨by simp [LLTAMD64CommitRW, hacq, hval],
             fun i hi => lltRelease_mem et st1.locks st1.orecs i hi⟩

/-- C4 (witness): the commit of `lltW4` (one write, orec 0 unlocked at
version 0 ≤ start_time 5) acquires orec 0, validates, writes back and
releases orec 0 to `end_time = 9`. -/
theorem lltCommitRW_spec_witness :
    LLTAMD64CommitRW (fun a => a) 9 lltW4 =
      some { lltW4acq with
               memory := lltWriteback lltW4acq.writes lltW4acq.memory,
               orecs := lltRelease 9 lltW4acq.locks lltW4acq.orecs,
               r_orecs := [], writes := [], locks := [] } ∧
    (lltRelease 9 lltW4acq.locks lltW4acq.orecs 0).v = 9 := by
  have h := (lltCommitRW_spec.2.2.2 (fun a => a) 9 lltW4 lltW4acq rfl).2 rfl
  exact ⟨h.1, h.2 0 (by decide)⟩

/-- C5: an LLT-AMD64 read returns the observed word and logs the orec
exactly when the two orec observations agree and are at most `start_time`,
and aborts otherwise; a writing transaction consults the redo log first
and, on a hit, returns the buffered value with no orec check and no read
logging, while on a miss it behaves as the read-only version. -/
theorem lltRead_spec (start_time : Nat) (r_orecs : List Nat)
    (writes : List (Nat × Nat)) (addr oid ivt tmp ivt2 : Nat) :
    (ivt = ivt2 ∧ ivt ≤ start_time →
       LLTAMD64ReadRO start_time r_orecs oid ivt tmp ivt2 =
         some (tmp, r_orecs ++ [oid])) ∧
    (¬ (ivt = ivt2 ∧ ivt ≤ start_time) →
       LLTAMD64ReadRO start_time r_orecs oid ivt tmp ivt2 = none) ∧
    (∀ v, wsFind writes addr = some v →
       LLTAMD64ReadRW start_time r_orecs writes addr oid ivt tmp ivt2 =
         some (v, r_orecs)) ∧
    (wsFind writes addr = none →
       LLTAMD64ReadRW start_time r_orecs writes addr oid ivt tmp ivt2 =
         LLTAMD64ReadRO start_time r_orecs oid ivt tmp ivt2) := by
  refine ⟨?_, ?_, ?_, ?_⟩
  · rintro ⟨h1, h2⟩; rw [LLTAMD64ReadRO, if_pos ⟨h2, h1⟩]
  · intro h
    rw [LLTAMD64ReadRO, if_neg (fun hc => h ⟨hc.2, hc.1⟩)]
  · intro v hv; simp [LLTAMD64ReadRW, hv]
  · intro hv; simp [LLTAMD64ReadRW, hv]

/-- C5 (witness): a valid read-only read (matching observations `2 = 2 ≤ 5`)
and a redo-log hit in a writing read (address 3 buffered at 42, returned
even though the orec observation 9 exceeds `start_time`). -/
theorem lltRead_spec_witness :
    LLTAMD64ReadRO 5 [] 0 2 7 2 = some (7, [0]) ∧
    LLTAMD64ReadRW 5 [] [(3, 42)] 3 0 9 7 8 = some (42, []) :=
  ⟨(lltRead_spec 5 [] [(3, 42)] 3 0 2 7 2).1 ⟨rfl, by decide⟩,
   (lltRead_spec 5 [] [(3, 42)] 3 0 9 7 8).2.2.1 42 rfl⟩

/-- C6: in an outermost non-turbo writing Cohort-Eager commit whose two
waits have been satisfied, the `validate` step runs exactly when
`inplace = 1` or the transaction's order (`cpending + 1`) differs from
`last_order`; the commit aborts exactly when validation runs and finds a
logged orec with version above `ts_cache`; and the state handed to the
abort has `committed` incremented and `last_complete` published as the
transaction's order. -/
theorem cohortsCommit_validation_gate (go : Nat → Nat) (st : CEState)
    (hnest : st.nesting_depth = 1) (hturbo : st.turbo = false)
    (hw : st.writes ≠ [])
    (hwait1 : st.last_complete = w64 st.cpending)
    (hwait2 : ¬ st.cpending + 1 < st.started) :
    (CEAction.validated ∈ (alg_tm_end go st).2 ↔
       (st.inplace = 1 ∨ st.cpending + 1 ≠ st.last_order)) ∧
    ((∃ ab, (alg_tm_end go st).1 = .abortedTx ab) ↔
       ((st.inplace = 1 ∨ st.cpending + 1 ≠ st.last_order) ∧
        ∃ i ∈ st.r_orecs, st.orecs i > st.ts_cache)) ∧
    (∀ ab, (alg_tm_end go st).1 = .abortedTx ab →
       ab.committed = st.committed + 1 ∧
       ab.last_complete = w64 (st.cpending + 1)) := by
  by_cases hdo : st.inplace = 1 ∨ st.cpending + 1 ≠ st.last_order
  · by_cases hex : ∃ i ∈ st.r_orecs, st.orecs i > st.ts_cache
    · have hval : ceValidate st.r_orecs
          { st with nesting_depth := 0, cpending := st.cpending + 1,
                    order := st.cpending + 1 } =
          Except.error (ceAbortState
            { st with nesting_depth := 0, cpending := st.cpending + 1,
                      order := st.cpending + 1 }) :=
        ceValidate_error _ _ hex
      have heq : alg_tm_end go st =
          (.abortedTx (ceAbortState
             { st with nesting_depth := 0, cpending := st.cpending + 1,
                       order := st.cpending + 1 }),
           [.spin, .spin, .validated]) := by
        simp only [alg_tm_end]
        rw [if_neg (show ¬ st.nesting_depth - 1 ≠ 0 by simp [hnest]),
            if_neg (show ¬ st.turbo = true by simp [hturbo]),
            if_neg (show ¬ st.writes.length = 0 by simp [hw]),
            if_neg (show ¬ st.last_complete ≠ w64 (st.cpending + 1 - 1) by
              simp [hwait1]),
            if_neg hwait2, if_pos hdo, hval]
      rw [heq]
      refine ⟨by simp [hdo], ?_, ?_⟩
      · constructor
        · intro _; exact ⟨hdo, hex⟩
        · intro _; exact ⟨_, rfl⟩
      · intro ab hab
        injection hab with hab
        rw [← hab]
        exact ⟨rfl, rfl⟩
    · have hval : ceValidate st.r_orecs
          { st with nesting_depth := 0, cpending := st.cpending + 1,
                    order := st.cpending + 1 } =
          Except.ok
            { st with nesting_depth := 0, cpending := st.cpending + 1,
                      order := st.cpending + 1 } :=
        ceValidate_ok _ _ (fun i hi hgt => hex ⟨i, hi, hgt⟩)
      have heq : alg_tm_end go st =
          (.committedTx (ceCommitTail go
             { st with nesting_depth := 0, cpending := st.cpending + 1,
                       order := st.cpending + 1 }).1,
           [.spin, .spin, .validated] ++
             (ceCommitTail go
               { st with nesting_depth := 0, cpending := st.cpending + 1,
                         order := st.cpending + 1 }).2) := by
        simp only [alg_tm_end]
        rw [if_neg (show ¬ st.nesting_depth - 1 ≠ 0 by simp [hnest]),
            if_neg (show ¬ st.turbo = true by simp [hturbo]),
            if_neg (show ¬ st.writes.length = 0 by simp [hw]),
            if_neg (show ¬ st.last_complete ≠ w64 (st.cpending + 1 - 1) by
              simp [hwait1]),
            if_neg hwait2, if_pos hdo, hval]
      rw [heq]
      refine ⟨by simp [hdo], ?_, by intro ab hab; simp at hab⟩
      constructor
      · rintro ⟨ab, hab⟩; simp at hab
      · rintro ⟨-, hx⟩; exact absurd hx hex
  · have heq : alg_tm_end go st =
        (.committedTx (ceCommitTail go
           { st with nesting_depth := 0, cpending := st.cpending + 1,
                     order := st.cpending + 1 }).1,
         [.spin, .spin] ++
           (ceCommitTail go
             { st with nesting_depth := 0, cpending := st.cpending + 1,
                       order := st.cpending + 1 }).2) := by
      simp only [alg_tm_end]
      rw [if_neg (show ¬ st.nesting_depth - 1 ≠ 0 by simp [hnest]),
          if_neg (show ¬ st.turbo = true by simp [hturbo]),
          if_neg (show ¬ st.writes.length = 0 by simp [hw]),
          if_neg (show ¬ st.last_complete ≠ w64 (st.cpending + 1 - 1) by
            simp [hwait1]),
          if_neg hwait2, if_neg hdo]
    rw [heq]
    refine ⟨?_, ?_, by intro ab hab; simp at hab⟩
    · simp only [List.cons_append, List.nil_append, List.mem_cons]
      constructor
      · rintro (h | h | h)
        · cases h
        · cases h
        · exact absurd rfl
            ((ceWriteback_actions go _ _ _ _ CEAction.validated
              (by exact h)).2)
      · intro h; exact absurd h hdo
    · constructor
      · rintro ⟨ab, hab⟩; simp at hab
      · rintro ⟨h, -⟩; exact absurd h hdo

/-- C6 (witness): the aborting commit of the concrete writer `ceSt6`
(two-transaction cohort, order 2, `last_order = 0`, logged orec at
version 7 above `ts_cache = 0`). -/
theorem cohortsCommit_validation_gate_witness :
    (CEAction.validated ∈ (alg_tm_end (fun a => a) ceSt6).2 ↔
       (ceSt6.inplace = 1 ∨ ceSt6.cpending + 1 ≠ ceSt6.last_order)) ∧
    (∀ ab, (alg_tm_end (fun a => a) ceSt6).1 = .abortedTx ab →
       ab.committed = ceSt6.committed + 1 ∧
       ab.last_complete = w64 (ceSt6.cpending + 1)) := by
  have h := cohortsCommit_validation_gate (fun a => a) ceSt6 rfl rfl
    (by decide) (by decide) (by decide)
  exact ⟨h.1, h.2.2⟩

/-- C9: in every Cohort-Eager commit in which `validate` aborts the
transaction, the state handed to the abort has the shared memory and the
orec table of the pre-commit state — no redo-log entry has been written
back and no orec marked — and the trace up to the abort holds only
spin-waits and the validation step, no store and no mark. -/
theorem cohortsCommit_no_writeback_on_abort (go : Nat → Nat) (st : CEState) :
    ∀ (ab : CEState) (tr : List CEAction),
      alg_tm_end go st = (.abortedTx ab, tr) →
        ab.memory = st.memory ∧ ab.orecs = st.orecs ∧
        ∀ a ∈ tr, a = CEAction.spin ∨ a = CEAction.validated := by
  intro ab tr h
  simp only [alg_tm_end] at h
  split at h
  · simp at h
  · split at h
    · split at h <;> simp at h
    · split at h
      · simp at h
      · split at h
        · simp at h
        · split at h
          · simp at h
          · split at h
            · split at h
              · rename_i ab1 heq
                injection h with h1 h2
                injection h1 with h1
                subst h1
                subst h2
                rw [ceValidate_error_shape _ _ _ heq]
                exact ⟨rfl, rfl, by decide⟩
              · simp at h
            · simp at h

/-- C9 (witness): the aborting commit of the concrete writer `ceSt9`
(logged orec at version 10, `ts_cache = 0`). -/
theorem cohortsCommit_no_writeback_on_abort_witness :
    ceAb9.memory = ceSt9.memory ∧ ceAb9.orecs = ceSt9.orecs ∧
    ∀ a ∈ [CEAction.spin, CEAction.spin, CEAction.validated],
      a = CEAction.spin ∨ a = CEAction.validated :=
  cohortsCommit_no_writeback_on_abort (fun a => a) ceSt9 ceAb9
    [CEAction.spin, CEAction.spin, CEAction.validated] rfl

/-- C10 (witness): the read-only commit of the concrete state `ceW10`. -/
theorem cohortsCommit_readonly_frame_witness :
    alg_tm_end (fun a => a) ceW10 =
      (.committedTx { ceW10 with nesting_depth := 0,
                                 started := ceW10.started - 1,
                                 r_orecs := [],
                                 commits_ro := ceW10.commits_ro + 1 },
       []) :=
  (cohortsCommit_readonly_frame (fun a => a) ceW10 rfl rfl rfl).1

end RSTM
